import Mathlib

/-!
Verification of the Thunderbird-to-Sieve filter converter
(`filter_converter.py`) against its natural-language specification.

Strings are modelled as lists of characters (`Str`).  Python code that can
raise an exception (attribute errors on `None` or on values of the wrong
dynamic type) is modelled with `Option`: `none` is an uncaught exception.
Case folding uses `Char.toLower`, which agrees with Python on ASCII input.
-/

namespace TbSieve

/-- Python strings, modelled as lists of characters. -/
abbrev Str := List Char

/-- Embed a Lean string literal as a character list. -/
def lit (s : String) : Str := s.data

/-- A single-quote character (kept out of string literals). -/
def sq : Char := Char.ofNat 39

/-- The characters matched by Python `\s` and stripped by `str.strip()`
(ASCII fragment). -/
def pyWhitespace (c : Char) : Bool :=
  c = ' ' || c = '\t' || c = '\n' || c = '\r' || c = Char.ofNat 11 || c = Char.ofNat 12

/-- Python `str.strip()`: remove whitespace from both ends. -/
def pyStrip (s : Str) : Str :=
  ((s.dropWhile pyWhitespace).reverse.dropWhile pyWhitespace).reverse

/-- Python `str.strip(ch)`: remove every leading and trailing occurrence of
one character. -/
def pyStripChar (q : Char) (s : Str) : Str :=
  ((s.dropWhile (fun c => c = q)).reverse.dropWhile (fun c => c = q)).reverse

/-- Model of Python `startswith`: `startsWithL p s` tests whether `s` begins with `p`. -/
def startsWithL : Str → Str → Bool
  | [], _ => true
  | _ :: _, [] => false
  | p :: ps, c :: cs => if p = c then startsWithL ps cs else false

/-- Python `needle in haystack` for strings (substring containment). -/
def containsSub : Str → Str → Bool
  | [], sub => startsWithL sub []
  | s@(_ :: rest), sub => startsWithL sub s || containsSub rest sub

/-- Python `str.replace(pat, rep)` with a non-empty pattern, scanning left to
right without overlapping; the fuel argument bounds the recursion by the
length of the subject string. -/
def replaceSubFuel : Nat → Str → Str → Str → Str
  | 0, s, _, _ => s
  | _ + 1, [], _, _ => []
  | fuel + 1, s@(c :: rest), pat, rep =>
    if startsWithL pat s then rep ++ replaceSubFuel fuel (s.drop pat.length) pat rep
    else c :: replaceSubFuel fuel rest pat rep

/-- Python `str.replace` wrapper. -/
def replaceSub (s pat rep : Str) : Str := replaceSubFuel s.length s pat rep

/-- Python line splitting: `split` on the newline character, keeping
empty fields. -/
def splitNl : Str → List Str
  | [] => [[]]
  | c :: rest =>
    if c = '\n' then [] :: splitNl rest
    else
      match splitNl rest with
      | [] => [[c]]
      | l :: ls => (c :: l) :: ls

/-- Python `sep.join(xs)`: the first element, then each further element
preceded by the separator. -/
def joinSep (sep : Str) : List Str → Str
  | [] => []
  | x :: xs => x ++ xs.foldl (fun acc y => acc ++ (sep ++ y)) []

/-!
Model of the triple-extraction call of `convert_condition`: `re.findall`
with the pattern `\(([^,]+),\s*([^,]+),\s*(.+?)\)`.

A match at a given position consists of a literal `(`, a non-empty run of
non-comma characters (group 1), a comma, optional whitespace, a non-empty
run of non-comma characters (group 2), a comma, optional whitespace, a lazy
non-empty run of non-newline characters (group 3), and a literal `)`.
Backtracking matters in two places: when the first comma of the tail is
reached while `\s*` has consumed everything (the last whitespace character
is then handed back to `[^,]+`), and when `(.+?)\)` fails after maximal
`\s*` (shorter whitespace runs are retried).
-/

/-- Scan for the first `)`; return the characters before it and the suffix
after it.  Fails when a newline is reached first (Python `.` does not match
newlines). -/
def scanToClose : Str → Option (Str × Str)
  | [] => none
  | c :: rest =>
    if c = ')' then some ([], rest)
    else if c = '\n' then none
    else
      match scanToClose rest with
      | some (p, s) => some (c :: p, s)
      | none => none

/-- Pattern `(.+?)\)` at the current position: at least one non-newline character,
lazily extended until a closing parenthesis. -/
def lazyDotPlus (u : Str) : Option (Str × Str) :=
  match u with
  | [] => none
  | c :: rest =>
    if c = '\n' then none
    else
      match scanToClose rest with
      | some (p, s) => some (c :: p, s)
      | none => none

/-- Pattern `\s*(.+?)\)` with backtracking: try consuming `j` whitespace characters,
largest `j` first. -/
def tryTail (u : Str) : Nat → Option (Str × Str)
  | 0 => lazyDotPlus u
  | j + 1 =>
    match lazyDotPlus (u.drop (j + 1)) with
    | some r => some r
    | none => tryTail u j

/-- Pattern `\s*([^,]+),` after the first comma: greedy whitespace, then a non-empty
non-comma run up to the next comma; if the whitespace run is flush against
that comma, its last character is handed back to `[^,]+`. -/
def matchG2 (u : Str) : Option (Str × Str) :=
  let ws := u.takeWhile pyWhitespace
  let afterWs := u.drop ws.length
  let g2a := afterWs.takeWhile (fun c => !(c = ','))
  match afterWs.drop g2a.length with
  | ',' :: rest' =>
    if g2a = [] then
      match ws.reverse with
      | [] => none
      | w :: _ => some ([w], rest')
    else some (g2a, rest')
  | _ => none

/-- Try the whole triple pattern at the head of `s`; on success return the
three groups and the suffix after the match. -/
def matchAt (s : Str) : Option ((Str × Str × Str) × Str) :=
  match s with
  | '(' :: rest =>
    let g1 := rest.takeWhile (fun c => !(c = ','))
    if g1 = [] then none
    else
      match rest.drop g1.length with
      | ',' :: r2 =>
        match matchG2 r2 with
        | some (g2, r3) =>
          match tryTail r3 ((r3.takeWhile pyWhitespace).length) with
          | some (g3, rem) => some ((g1, g2, g3), rem)
          | none => none
        | none => none
      | _ => none
  | _ => none

/-- Left-to-right non-overlapping scan of `re.findall`; the fuel is the
length of the subject string (every match consumes at least one character). -/
def findallAux : Nat → Str → List (Str × Str × Str)
  | 0, _ => []
  | _ + 1, [] => []
  | fuel + 1, s@(_ :: rest) =>
    match matchAt s with
    | some (t, rem) => t :: findallAux fuel rem
    | none => findallAux fuel rest

/-- All condition triples extracted from a raw condition expression. -/
def findallTriples (s : Str) : List (Str × Str × Str) := findallAux s.length s

/-- Model of `clean_header` from the source: unescape `\"` sequences, then strip
surrounding double quotes. -/
def clean_header (h : Str) : Str :=
  pyStripChar '"' (replaceSub h (lit "\\\"") (lit "\""))

/-- The per-triple branch of `convert_condition`: map one
`(header, operation, value)` triple to its Sieve condition statements.
The header and value are cleaned; the operation is compared raw. -/
def sieveOfTriple (header0 operation value0 : Str) : List Str :=
  let header := clean_header header0
  let value := clean_header value0
  if operation = lit "is" then
    if header = lit "from" then [lit "header :is \"From\" \"" ++ value ++ lit "\""]
    else []
  else if operation = lit "contains" then
    if header = lit "from" then [lit "header :contains \"From\" \"" ++ value ++ lit "\""]
    else if header = lit "subject" then [lit "header :contains \"Subject\" \"" ++ value ++ lit "\""]
    else [lit "header :contains \"" ++ header ++ lit "\" \"" ++ value ++ lit "\""]
  else if operation = lit "begins with" then
    if header = lit "from" then [lit "header :matches \"From\" \"" ++ value ++ lit "*\""]
    else if header = lit "subject" then [lit "header :matches \"Subject\" \"" ++ value ++ lit "*\""]
    else []
  else if operation = lit "ends with" then
    if header = lit "from" then [lit "header :matches \"From\" \"*" ++ value ++ lit "\""]
    else []
  else []

/-- Accumulate the Sieve statements of all extracted triples. -/
def condStatements (u : Str) : List Str :=
  (findallTriples u).foldl (fun acc t => acc ++ sieveOfTriple t.1 t.2.1 t.2.2) []

/-- Model of `convert_condition` from the source: strip the expression, read the
leading `OR `/`AND ` marker, and translate the extracted triples. -/
def convert_condition (c : Str) : Str × List Str :=
  if startsWithL (lit "OR ") (pyStrip c) then
    (lit "anyof", condStatements ((pyStrip c).drop 3))
  else if startsWithL (lit "AND ") (pyStrip c) then
    (lit "allof", condStatements ((pyStrip c).drop 4))
  else
    (lit "anyof", condStatements (pyStrip c))

/-!
The record parser.  A Python dict value is either a string or a list of
strings (the `actions` entry); a record is the dict built line by line.
-/

/-- A value stored in a filter dict: a plain string, or the list kept under
the `actions` key. -/
inductive PyVal where
  | str : Str → PyVal
  | list : List Str → PyVal
deriving DecidableEq

/-- One Thunderbird filter record: a dict from field names to values,
insertion-ordered with in-place overwrites. -/
structure Filter where
  entries : List (Str × PyVal)
deriving DecidableEq

/-- Dict lookup. -/
def getVal (es : List (Str × PyVal)) (k : Str) : Option PyVal :=
  (es.find? (fun p => decide (p.1 = k))).map (fun p => p.2)

/-- Dict assignment: overwrite in place when the key exists, append
otherwise. -/
def setVal (es : List (Str × PyVal)) (k : Str) (v : PyVal) : List (Str × PyVal) :=
  if (es.find? (fun p => decide (p.1 = k))).isSome then
    es.map (fun p => if p.1 = k then (k, v) else p)
  else es ++ [(k, v)]

/-- The completeness test of the parser: a truthy (non-empty) dict holding
both a `name` and a `condition` key. -/
def completeF (f : Filter) : Bool :=
  !(decide (f.entries = [])) && (getVal f.entries (lit "name")).isSome
    && (getVal f.entries (lit "condition")).isSome

/-- On a line starting with `name=`, finalize the current record when it is
complete and start a fresh one. -/
def startRecord (acc : List Filter × Filter) (line : Str) : List Filter × Filter :=
  if startsWithL (lit "name=") line then
    ((if completeF acc.2 then acc.1 ++ [acc.2] else acc.1), (⟨[]⟩ : Filter))
  else acc

/-- Handle a `key=value` line: split on the first `=`, strip quotes from the
value, and store it.  Appending an `action` value when the `actions` entry
is a plain string is the AttributeError path of the source (`none`). -/
def handleKV (fs : List Filter) (cur : Filter) (line : Str) :
    Option (List Filter × Filter) :=
  let key := line.takeWhile (fun c => !(c = '='))
  let value := pyStripChar '"' ((line.dropWhile (fun c => !(c = '='))).drop 1)
  if key = lit "action" then
    match getVal cur.entries (lit "actions") with
    | some (.str _) => none
    | some (.list l) =>
      some (fs, ⟨setVal cur.entries (lit "actions") (.list (l ++ [value]))⟩)
    | none => some (fs, ⟨setVal cur.entries (lit "actions") (.list [value])⟩)
  else if key = lit "name" then
    some (fs, ⟨setVal cur.entries (lit "name") (.str value)⟩)
  else some (fs, ⟨setVal cur.entries key (.str value)⟩)

/-- Process one raw input line of `parse_thunderbird_filters`. -/
def parseLine (acc : List Filter × Filter) (rawLine : Str) :
    Option (List Filter × Filter) :=
  if pyStrip rawLine = [] then some acc
  else
    if (pyStrip rawLine).contains '=' then
      handleKV (startRecord acc (pyStrip rawLine)).1 (startRecord acc (pyStrip rawLine)).2
        (pyStrip rawLine)
    else some (startRecord acc (pyStrip rawLine))

/-- Model of `parse_thunderbird_filters` from the source: fold the lines, then
finalize the trailing record when it is complete. -/
def parse_thunderbird_filters (text : Str) : Option (List Filter) :=
  match (splitNl text).foldlM parseLine ([], (⟨[]⟩ : Filter)) with
  | none => none
  | some (fs, cur) => some (if completeF cur then fs ++ [cur] else fs)

/-!
The rule translator: action translation, folder-path normalization, and
rule-block assembly of `convert_to_sieve`.
-/

/-- Python `repr` of a string (the fragment relevant to ASCII filter data):
single quotes unless the string contains one and no double quote; standard
escapes for backslash, newline, carriage return and tab. -/
def pyReprStr (s : Str) : Str :=
  let useDouble := s.contains sq && !(s.contains '"')
  let q := if useDouble then '"' else sq
  q :: (s.foldr (fun c acc =>
    if c = '\\' then '\\' :: '\\' :: acc
    else if c = '\n' then '\\' :: 'n' :: acc
    else if c = '\r' then '\\' :: 'r' :: acc
    else if c = '\t' then '\\' :: 't' :: acc
    else if c = q && !useDouble then '\\' :: c :: acc
    else c :: acc) [q])

/-- Python `str` of a list of strings, as produced by an f-string. -/
def pyListRepr (xs : List Str) : Str :=
  '[' :: (joinSep (lit ", ") (xs.map pyReprStr) ++ [']'])

/-- Python `str` of a dict value, as produced by an f-string. -/
def pyValStr : PyVal → Str
  | .str s => s
  | .list l => pyListRepr l

/-- Python `str` of an optional dict value (`None` when absent). -/
def pyOptValStr : Option PyVal → Str
  | none => lit "None"
  | some v => pyValStr v

/-- Python `x in v` for a dict value: substring test on a string, element
test on a list. -/
def pyIn (needle : Str) : PyVal → Bool
  | .str s => containsSub s needle
  | .list l => l.contains needle

/-- Replacement of every literal dot by a dash, character by character. -/
def dotDash (c : Char) : Char := if c = '.' then '-' else c

/-- Replacement of every slash by a dot, character by character. -/
def slashDot (c : Char) : Char := if c = '/' then '.' else c

/-- The folder-path separator rewrite applied inside the file-into
statement: literal dots become dashes, then slashes become dots. -/
def normalizeFolder (s : Str) : Str := (s.map dotDash).map slashDot

/-- The `(.+)$` tail of the folder regex: the whole non-empty remainder, or
the remainder up to one final trailing newline. -/
def groupAfterInbox (r : Str) : Option Str :=
  match r with
  | [] => none
  | _ :: _ =>
    if (r.takeWhile (fun c => !(c = '\n'))).length = r.length then some r
    else if (r.takeWhile (fun c => !(c = '\n'))).length + 1 = r.length
        && !((r.takeWhile (fun c => !(c = '\n'))) = []) then
      some (r.takeWhile (fun c => !(c = '\n')))
    else none

/-- Model of the folder search regex: the leftmost occurrence of `inbox/`
whose remainder satisfies the `(.+)$` tail. -/
def searchInbox : Str → Option Str
  | [] => none
  | s@(_ :: rest) =>
    if startsWithL (lit "inbox/") s then
      match groupAfterInbox (s.drop 6) with
      | some g => some g
      | none => searchInbox rest
    else searchInbox rest

/-- The `setflag "\\Seen"` statement. -/
def seenStmt : Str := lit "\tsetflag \"\\\\Seen\";"

/-- The `setflag "\\Flagged"` statement. -/
def flagStmt : Str := lit "\tsetflag \"\\\\Flagged\";"

/-- The `stop` statement. -/
def stopStmt : Str := lit "\tstop;"

/-- The hint recorded when a move action targets a Trash path that the
inbox pattern did not match. -/
def trashHint (p : Str) : Str :=
  lit "rule deactivated because target is Trash " ++ ([sq] ++ p ++ [sq])

/-- The file-into statement for a matched folder sub-path. -/
def fileintoStmt (folder : Str) : Str :=
  lit "\tfileinto \"INBOX." ++ (normalizeFolder folder ++ lit "\";")

/-- The flag, stop and mark statements accumulated by the membership tests,
in source order. -/
def baseActions (v : PyVal) : List Str :=
  (if pyIn (lit "Mark read") v then [seenStmt] else []) ++
    ((if pyIn (lit "Mark flagged") v then [flagStmt] else []) ++
      (if pyIn (lit "Stop execution") v then [stopStmt] else []))

/-- The action-translation block of `convert_to_sieve`: given whether the
dict holds an `actions` key, its value, and the optional `actionValue`,
produce the action statements and the hint.  `none` is the AttributeError
raised when `Move to folder` is present but the action value is `None` or
not a string. -/
def actionsAndHint (hasActs : Bool) (thunder_actions : PyVal)
    (thunder_value : Option PyVal) : Option (List Str × Str) :=
  if hasActs then
    if pyIn (lit "Move to folder") thunder_actions then
      match thunder_value with
      | some (.str full_path) =>
        match searchInbox (full_path.map Char.toLower) with
        | some folder => some (baseActions thunder_actions ++ [fileintoStmt folder], [])
        | none =>
          if containsSub full_path (lit "/Trash/") then
            some (baseActions thunder_actions, trashHint full_path)
          else some (baseActions thunder_actions, [])
      | _ => none
    else some (baseActions thunder_actions, [])
  else some ([], [])

/-- The commented block emitted when no condition statement could be
produced. -/
def unconvertibleBlock (name condition operator : Str) (conds actions : List Str) : Str :=
  lit "# WARNING: condition not convertable\n" ++
    ((lit "# " ++ condition ++ lit "\n") ++
      ((lit "# rule:[" ++ name ++ lit "]\n") ++
        ((lit "#if " ++ operator ++ lit " (\n#    ") ++
          (joinSep (lit "#,\n#    ") conds ++
            (lit "\n#)\n#\x7b\n#" ++ (joinSep (lit "\n#") actions ++ lit "\n#\x7d"))))))

/-- The commented diagnostic block emitted when a rule translates no
actions. -/
def noActionBlock (name hint condition : Str) (tA : PyVal) (tV : Option PyVal) : Str :=
  lit "# WARNING: rule has no action\n" ++
    ((lit "# rule:[" ++ name ++ lit "]\n") ++
      ((if hint = [] then [] else lit "# hint " ++ hint ++ lit "\n") ++
        ((lit "# conditions " ++ condition ++ lit "\n") ++
          ((lit "# actions " ++ pyValStr tA ++ lit "\n") ++
            (lit "# values " ++ pyOptValStr tV ++ lit "\n")))))

/-- The active rule block. -/
def activeBlock (name operator : Str) (conds actions : List Str) : Str :=
  lit "# rule:[" ++ name ++
    (lit "]\nif " ++ operator ++
      (lit " (\n    " ++
        (joinSep (lit ",\n    ") conds ++
          (lit "\n)\n\x7b\n" ++ (joinSep (lit "\n") actions ++ lit "\n\x7d")))))

/-- Model of `convert_to_sieve` from the source: translate actions, then the
condition, then assemble exactly one of the three block kinds.  `none` is
an uncaught exception (move action without a string action value, or a
non-string condition). -/
def convert_to_sieve (f : Filter) : Option Str :=
  match actionsAndHint ((getVal f.entries (lit "actions")).isSome)
      ((getVal f.entries (lit "actions")).getD (.list []))
      (getVal f.entries (lit "actionValue")) with
  | none => none
  | some (actions, hint) =>
    match (getVal f.entries (lit "condition")).getD (.str []) with
    | .list _ => none
    | .str condition =>
      if (convert_condition condition).2 = [] then
        some (unconvertibleBlock
          (pyValStr ((getVal f.entries (lit "name")).getD (.str (lit "Unnamed Filter"))))
          condition (convert_condition condition).1 (convert_condition condition).2 actions)
      else if actions = [] then
        some (noActionBlock
          (pyValStr ((getVal f.entries (lit "name")).getD (.str (lit "Unnamed Filter"))))
          hint condition ((getVal f.entries (lit "actions")).getD (.list []))
          (getVal f.entries (lit "actionValue")))
      else
        some (activeBlock
          (pyValStr ((getVal f.entries (lit "name")).getD (.str (lit "Unnamed Filter"))))
          (convert_condition condition).1 (convert_condition condition).2 actions)

/-- Model of `thunderbird_to_sieve` from the source: parse, convert every record,
and prepend the require header. -/
def thunderbird_to_sieve (text : Str) : Option Str :=
  match parse_thunderbird_filters text with
  | none => none
  | some filters =>
    match filters.mapM convert_to_sieve with
    | none => none
    | some rules =>
      some (lit "require [\"fileinto\", \"imap4flags\"];\n\n" ++ joinSep (lit "\n\n") rules)

/-!
Regression checks tying the embedding to concrete behaviour of the source,
including the backtracking corner cases of the two regular expressions.
-/

theorem findall_basic :
    findallTriples (lit "(from,contains,\"x@y.com\")") =
      [(lit "from", lit "contains", lit "\"x@y.com\"")] := by decide

theorem findall_backtrack_before_close :
    findallTriples (lit "(a,b, )") = [(lit "a", lit "b", lit " ")] := by decide

theorem findall_backtrack_second_group :
    findallTriples (lit "(a, ,b)") = [(lit "a", lit " ", lit "b")] := by decide

theorem convert_condition_and_marker :
    convert_condition (lit "AND (from,contains,\"a\") AND (subject,contains,\"b\")") =
      (lit "allof",
        [lit "header :contains \"From\" \"a\"", lit "header :contains \"Subject\" \"b\""]) := by
  decide

theorem parse_drops_truncated_record :
    parse_thunderbird_filters (lit "name=\"A\"\ncondition=\"c\"\nname=\"B\"") =
      some [⟨[(lit "name", .str (lit "A")), (lit "condition", .str (lit "c"))]⟩] := by decide

theorem parse_empty : parse_thunderbird_filters [] = some [] := by decide

/-! Helper lemmas shared by the claim theorems. -/

theorem startsWithL_append (p t : Str) : startsWithL p (p ++ t) = true := by
  induction p with
  | nil => rfl
  | cons c cs ih => simp [startsWithL, ih]

theorem baseActions_cases (v : PyVal) :
    ∀ s ∈ baseActions v, s = seenStmt ∨ s = flagStmt ∨ s = stopStmt := by
  intro s hs
  unfold baseActions at hs
  rcases List.mem_append.mp hs with h1 | h2
  · left
    split at h1 <;> simp_all
  · rcases List.mem_append.mp h2 with h3 | h4
    · right; left
      split at h3 <;> simp_all
    · right; right
      split at h4 <;> simp_all

theorem baseActions_sublist (v : PyVal) :
    (baseActions v).Sublist [seenStmt, flagStmt, stopStmt] := by
  unfold baseActions
  have h1 : (if pyIn (lit "Mark read") v then [seenStmt] else []).Sublist [seenStmt] := by
    split <;> simp
  have h2 : (if pyIn (lit "Mark flagged") v then [flagStmt] else []).Sublist [flagStmt] := by
    split <;> simp
  have h3 : (if pyIn (lit "Stop execution") v then [stopStmt] else []).Sublist [stopStmt] := by
    split <;> simp
  exact h1.append (h2.append h3)

/-- Claim C1, counterexample: a move action whose path points into
`INBOX/Trash/` (a trash location, witnessed by the `/Trash/` substring)
nevertheless emits a file-into statement, and the hint stays empty, because
the trash test only runs when the `inbox/` pattern fails to match. -/
theorem c1_counterexample :
    containsSub (lit "imap://u@h/INBOX/Trash/sub") (lit "/Trash/") = true ∧
      actionsAndHint true (.list [lit "Move to folder"])
          (some (.str (lit "imap://u@h/INBOX/Trash/sub"))) =
        some ([lit "\tfileinto \"INBOX.trash.sub\";"], []) := by decide

/-- Claim C1 as amended: a move action leaves the hint (and emits no
file-into statement) only when the lowercased path has no `inbox/` match
and the raw path contains `/Trash/`; when the `inbox/` pattern matches, a
file-into statement is emitted even for trash-bound paths. -/
theorem c1_amended (v : PyVal) (p : Str) (l : List Str) (h : Str)
    (hmove : pyIn (lit "Move to folder") v = true)
    (hnoinbox : searchInbox (p.map Char.toLower) = none)
    (htrash : containsSub p (lit "/Trash/") = true)
    (he : actionsAndHint true v (some (.str p)) = some (l, h)) :
    (∀ s ∈ l, startsWithL (lit "\tfileinto") s = false) ∧ h = trashHint p := by
  unfold actionsAndHint at he
  simp only [hmove, hnoinbox, htrash, if_true] at he
  obtain ⟨rfl, rfl⟩ := Prod.mk.injEq .. ▸ Option.some.inj he
  refine ⟨?_, rfl⟩
  intro s hs
  rcases baseActions_cases v s hs with rfl | rfl | rfl <;> decide

theorem c1_amended_witness :
    (∀ s ∈ ([stopStmt] : List Str), startsWithL (lit "\tfileinto") s = false) ∧
      trashHint (lit "mailbox://u/Trash/x") = trashHint (lit "mailbox://u/Trash/x") :=
  c1_amended (.list [lit "Stop execution", lit "Move to folder"]) (lit "mailbox://u/Trash/x")
    [stopStmt] (trashHint (lit "mailbox://u/Trash/x")) (by decide) (by decide) (by decide)
    (by decide)

/-- Claim C2, counterexample: the condition `(to or cc,contains,"z@y.com")`
produces exactly one statement, a substring test on the literal header
`to or cc`, not two statements on `to` and `cc`. -/
theorem c2_counterexample :
    convert_condition (lit "(to or cc,contains,\"z@y.com\")") =
      (lit "anyof", [lit "header :contains \"to or cc\" \"z@y.com\""]) := by decide

/-- Claim C2 as amended: a `contains` condition term on the `to or cc`
pseudo-header falls into the generic branch and yields a single substring
test on the literal header `to or cc`. -/
theorem c2_amended (v : Str) :
    sieveOfTriple (lit "to or cc") (lit "contains") v =
      [lit "header :contains \"to or cc\" \"" ++ clean_header v ++ lit "\""] := by
  have h1 : clean_header (lit "to or cc") = lit "to or cc" := by decide
  have h2 : lit "header :contains \"" ++ lit "to or cc" ++ lit "\" \"" =
      lit "header :contains \"to or cc\" \"" := by decide
  have e1 : ¬lit "contains" = lit "is" := by decide
  have e2 : ¬lit "to or cc" = lit "from" := by decide
  have e3 : ¬lit "to or cc" = lit "subject" := by decide
  unfold sieveOfTriple
  simp only [h1, if_neg e1, if_pos (rfl : lit "contains" = lit "contains"), if_neg e2,
    if_neg e3, h2, if_true]

/-- Claim C3, counterexample: a term whose operator is the negated-contains
keyword (spelled with an apostrophe in the source format) is not handled at
all: such a condition yields zero statements instead of a negated substring
test. -/
theorem c3_counterexample :
    convert_condition
        (['('] ++ lit "x-spam" ++ [','] ++
          (['d', 'o', 'e', 's', 'n', sq, 't', ' ', 'c', 'o', 'n', 't', 'a', 'i', 'n'] : Str) ++
          [','] ++ lit "yes)") =
      (lit "anyof", []) := by decide

/-- Claim C3 as amended: for every header and value, a condition term with
the negated-contains operator matches no branch of the translator and
produces no statement. -/
theorem c3_amended (h v : Str) :
    sieveOfTriple h
        (['d', 'o', 'e', 's', 'n', sq, 't', ' ', 'c', 'o', 'n', 't', 'a', 'i', 'n'] : Str) v =
      [] := by
  unfold sieveOfTriple
  rw [if_neg (by decide), if_neg (by decide), if_neg (by decide), if_neg (by decide)]

/-- The character-level behaviour of the folder rewrite on characters other
than the path separator. -/
theorem normChar (c : Char) (h : ¬c = '/') :
    slashDot (dotDash (slashDot (dotDash c))) = slashDot (dotDash c) := by
  by_cases h1 : c = '.'
  · subst h1; rfl
  · simp only [dotDash, slashDot, if_neg h1, if_neg h]

/-- Claim C6, counterexample: the folder derived from `INBOX/Foo/Bar.Baz`
is `foo/bar.baz`, and the separator rewrite is not idempotent on it: a
second application turns the freshly produced `.` separators into `-`. -/
theorem c6_counterexample :
    searchInbox ((lit "INBOX/Foo/Bar.Baz").map Char.toLower) = some (lit "foo/bar.baz") ∧
      ¬normalizeFolder (normalizeFolder (lit "foo/bar.baz")) =
          normalizeFolder (lit "foo/bar.baz") := by decide

/-- Claim C6 as amended: the separator rewrite is idempotent exactly on
folder strings that contain no `/`; on any path with a `/` separator (such
as the one derived from `INBOX/Foo/Bar.Baz`) re-applying it changes the
result. -/
theorem c6_amended (s : Str) (h : '/' ∉ s) :
    normalizeFolder (normalizeFolder s) = normalizeFolder s := by
  induction s with
  | nil => rfl
  | cons c t ih =>
    have hc : ¬c = '/' := fun hc => h (hc ▸ List.mem_cons_self c t)
    have ht := ih (fun m => h (List.mem_cons_of_mem _ m))
    simp only [normalizeFolder, List.map_cons] at ht ⊢
    rw [normChar c hc, ht]

theorem c6_amended_witness :
    normalizeFolder (normalizeFolder (lit "foo.bar")) = normalizeFolder (lit "foo.bar") :=
  c6_amended (lit "foo.bar") (by decide)

/-- Claim C7: the combinator is decided by the `OR `/`AND ` prefix of the
stripped expression: `anyof` with the marker stripped, `allof` with the
marker stripped, and `anyof` with nothing stripped otherwise. -/
theorem c7 (c : Str) :
    (startsWithL (lit "OR ") (pyStrip c) = true →
        convert_condition c = (lit "anyof", condStatements ((pyStrip c).drop 3))) ∧
      (startsWithL (lit "OR ") (pyStrip c) = false →
        startsWithL (lit "AND ") (pyStrip c) = true →
          convert_condition c = (lit "allof", condStatements ((pyStrip c).drop 4))) ∧
      (startsWithL (lit "OR ") (pyStrip c) = false →
        startsWithL (lit "AND ") (pyStrip c) = false →
          convert_condition c = (lit "anyof", condStatements (pyStrip c))) := by
  refine ⟨?_, ?_, ?_⟩
  · intro h1; simp [convert_condition, h1]
  · intro h1 h2; simp [convert_condition, h1, h2]
  · intro h1 h2; simp [convert_condition, h1, h2]

theorem c7_witness :
    convert_condition (lit " OR (a,b,c)") =
        (lit "anyof", condStatements ((pyStrip (lit " OR (a,b,c)")).drop 3)) ∧
      convert_condition (lit "AND (a,b,c)") =
          (lit "allof", condStatements ((pyStrip (lit "AND (a,b,c)")).drop 4)) ∧
        convert_condition (lit "(a,b,c)") =
          (lit "anyof", condStatements (pyStrip (lit "(a,b,c)"))) :=
  ⟨(c7 _).1 (by decide), (c7 _).2.1 (by decide) (by decide),
    (c7 _).2.2 (by decide) (by decide)⟩

/-- Claim C10: whenever the full conversion produces an output document,
that document begins with the require header line followed by a blank
line. -/
theorem c10 (text out : Str) (h : thunderbird_to_sieve text = some out) :
    ∃ rest, out = lit "require [\"fileinto\", \"imap4flags\"];\n\n" ++ rest := by
  unfold thunderbird_to_sieve at h
  split at h
  · exact Option.noConfusion h
  · split at h
    · exact Option.noConfusion h
    · exact ⟨_, (Option.some.inj h).symm⟩

theorem c10_witness :
    ∃ rest,
      lit "require [\"fileinto\", \"imap4flags\"];\n\n" =
        lit "require [\"fileinto\", \"imap4flags\"];\n\n" ++ rest :=
  c10 [] (lit "require [\"fileinto\", \"imap4flags\"];\n\n") (by decide)

/-- Claim C4: when a record yields a block and its condition translates to
zero statements, the block is the Unconvertible-Condition warning block and
never an Active Rule block (which would start with a rule-name header). -/
theorem c4 (f : Filter) (r cond : Str)
    (hcond : (getVal f.entries (lit "condition")).getD (.str []) = .str cond)
    (hc : (convert_condition cond).2 = [])
    (hr : convert_to_sieve f = some r) :
    startsWithL (lit "# WARNING: condition not convertable\n") r = true ∧
      startsWithL (lit "# rule:[") r = false := by
  unfold convert_to_sieve at hr
  rw [hcond] at hr
  split at hr
  · exact Option.noConfusion hr
  · dsimp only at hr
    rw [if_pos hc] at hr
    obtain rfl := (Option.some.inj hr).symm
    exact ⟨startsWithL_append _ _, rfl⟩

theorem c4_witness :
    startsWithL (lit "# WARNING: condition not convertable\n")
        (unconvertibleBlock (lit "A") (lit "junk") (lit "anyof") [] []) = true ∧
      startsWithL (lit "# rule:[")
        (unconvertibleBlock (lit "A") (lit "junk") (lit "anyof") [] []) = false :=
  c4 ⟨[(lit "name", .str (lit "A")), (lit "condition", .str (lit "junk"))]⟩
    (unconvertibleBlock (lit "A") (lit "junk") (lit "anyof") [] []) (lit "junk")
    (by decide) (by decide) (by decide)

/-- Claim C5: when a record yields a block, its condition translates to at
least one statement, and its action translation yields zero statements, the
block is the No-Action diagnostic listing the name, the original condition,
the raw actions, and the raw action value; it is not an executable rule
block. -/
theorem c5 (f : Filter) (r cond hint : Str)
    (hcond : (getVal f.entries (lit "condition")).getD (.str []) = .str cond)
    (hc : ¬(convert_condition cond).2 = [])
    (ha : actionsAndHint ((getVal f.entries (lit "actions")).isSome)
        ((getVal f.entries (lit "actions")).getD (.list []))
        (getVal f.entries (lit "actionValue")) = some ([], hint))
    (hr : convert_to_sieve f = some r) :
    r = noActionBlock
        (pyValStr ((getVal f.entries (lit "name")).getD (.str (lit "Unnamed Filter"))))
        hint cond ((getVal f.entries (lit "actions")).getD (.list []))
        (getVal f.entries (lit "actionValue")) ∧
      startsWithL (lit "# rule:[") r = false := by
  unfold convert_to_sieve at hr
  rw [ha, hcond] at hr
  dsimp only at hr
  simp only [if_neg hc, if_pos rfl] at hr
  obtain rfl := (Option.some.inj hr).symm
  exact ⟨rfl, rfl⟩

theorem c5_witness :
    noActionBlock (lit "A") [] (lit "(from,contains,\"a\")") (.list []) none =
        noActionBlock (lit "A") [] (lit "(from,contains,\"a\")") (.list []) none ∧
      startsWithL (lit "# rule:[")
        (noActionBlock (lit "A") [] (lit "(from,contains,\"a\")") (.list []) none) = false :=
  c5 ⟨[(lit "name", .str (lit "A")), (lit "condition", .str (lit "(from,contains,\"a\")"))]⟩
    (noActionBlock (lit "A") [] (lit "(from,contains,\"a\")") (.list []) none)
    (lit "(from,contains,\"a\")") [] (by decide) (by decide) (by decide) (by decide)

/-! Parser invariants for claim C8. -/

theorem handleKV_fst (fs : List Filter) (cur : Filter) (line : Str)
    (acc' : List Filter × Filter) (h : handleKV fs cur line = some acc') :
    acc'.1 = fs := by
  simp only [handleKV] at h
  split at h
  · split at h
    · exact Option.noConfusion h
    · exact congrArg Prod.fst (Option.some.inj h).symm
    · exact congrArg Prod.fst (Option.some.inj h).symm
  · split at h
    · exact congrArg Prod.fst (Option.some.inj h).symm
    · exact congrArg Prod.fst (Option.some.inj h).symm

theorem startRecord_fst (acc : List Filter × Filter) (line : Str) :
    (startRecord acc line).1 = acc.1 ∨
      ((startRecord acc line).1 = acc.1 ++ [acc.2] ∧ completeF acc.2 = true) := by
  unfold startRecord
  split
  · rename_i hname
    by_cases hcf : completeF acc.2 = true
    · right
      refine ⟨?_, hcf⟩
      simp [hcf]
    · left
      simp [hcf]
  · left; rfl

theorem parseLine_fst (acc : List Filter × Filter) (rawLine : Str)
    (acc' : List Filter × Filter) (h : parseLine acc rawLine = some acc') :
    acc'.1 = acc.1 ∨ (acc'.1 = acc.1 ++ [acc.2] ∧ completeF acc.2 = true) := by
  unfold parseLine at h
  split at h
  · rw [← Option.some.inj h]; left; rfl
  · split at h
    · rw [handleKV_fst _ _ _ _ h]
      exact startRecord_fst acc _
    · rw [← Option.some.inj h]
      exact startRecord_fst acc _

theorem parse_inv (lines : List Str) (acc : List Filter × Filter)
    (hacc : ∀ f ∈ acc.1, completeF f = true) (res : List Filter × Filter)
    (h : List.foldlM parseLine acc lines = some res) :
    ∀ f ∈ res.1, completeF f = true := by
  induction lines generalizing acc with
  | nil =>
    simp only [List.foldlM_nil] at h
    rw [← Option.some.inj h]
    exact hacc
  | cons l ls ih =>
    simp only [List.foldlM_cons] at h
    cases hstep : parseLine acc l with
    | none => rw [hstep] at h; exact Option.noConfusion h
    | some a1 =>
      rw [hstep] at h
      simp only [Option.bind_eq_bind, Option.some_bind] at h
      refine ih a1 ?_ h
      intro f hf
      rcases parseLine_fst acc l a1 hstep with h1 | ⟨h1, h2⟩
      · exact hacc f (h1 ▸ hf)
      · rw [h1] at hf
        rcases List.mem_append.mp hf with hf1 | hf2
        · exact hacc f hf1
        · rw [List.mem_singleton.mp hf2]; exact h2

/-- Claim C8: every record in a successfully parsed sequence carries both a
name and a condition field; in particular an incomplete trailing record is
dropped rather than appended. -/
theorem c8 (text : Str) (fs : List Filter) (f : Filter)
    (hp : parse_thunderbird_filters text = some fs) (hf : f ∈ fs) :
    (getVal f.entries (lit "name")).isSome = true ∧
      (getVal f.entries (lit "condition")).isSome = true := by
  unfold parse_thunderbird_filters at hp
  split at hp
  · exact Option.noConfusion hp
  · rename_i fs0cur heq
    rw [← Option.some.inj hp] at hf
    have hinv := parse_inv _ _ (by intro g hg; simp at hg) _ heq
    have hcf : completeF f = true := by
      split at hf
      · rcases List.mem_append.mp hf with h1 | h2
        · exact hinv f h1
        · rw [List.mem_singleton.mp h2]; assumption
      · exact hinv f hf
    simp only [completeF, Bool.and_eq_true] at hcf
    exact ⟨hcf.1.2, hcf.2⟩

theorem c8_witness :
    (getVal (Filter.mk [(lit "name", .str (lit "A")),
        (lit "condition", .str (lit "c"))]).entries (lit "name")).isSome = true ∧
      (getVal (Filter.mk [(lit "name", .str (lit "A")),
          (lit "condition", .str (lit "c"))]).entries (lit "condition")).isSome = true :=
  c8 (lit "name=\"A\"\ncondition=\"c\"\nname=\"B\"")
    [⟨[(lit "name", .str (lit "A")), (lit "condition", .str (lit "c"))]⟩]
    ⟨[(lit "name", .str (lit "A")), (lit "condition", .str (lit "c"))]⟩
    (by decide) (by decide)

/-- Claim C9: the action statements of a record always come in the fixed
order mark-as-read, mark-as-flagged, stop, file-into (each at most once),
and the translation depends only on membership in the action list, not on
the order or multiplicity of its keywords. -/
theorem c9 (b : Bool) (acts acts' : List Str) (v : Option PyVal) (l : List Str) (h : Str)
    (he : actionsAndHint b (.list acts) v = some (l, h)) :
    (∃ fi, l.Sublist [seenStmt, flagStmt, stopStmt, fi]) ∧
      ((∀ a, a ∈ acts ↔ a ∈ acts') →
        actionsAndHint b (.list acts) v = actionsAndHint b (.list acts') v) := by
  constructor
  · have hbase : ∀ fi : Str, (baseActions (.list acts)).Sublist
        [seenStmt, flagStmt, stopStmt, fi] := by
      intro fi
      exact (baseActions_sublist _).trans (List.sublist_append_left _ [fi])
    unfold actionsAndHint at he
    split at he
    · split at he
      · split at he
        · split at he
          · obtain rfl := congrArg Prod.fst (Option.some.inj he)
            exact ⟨_, (baseActions_sublist _).append (List.Sublist.refl _)⟩
          · split at he
            · obtain rfl := congrArg Prod.fst (Option.some.inj he)
              exact ⟨stopStmt, hbase _⟩
            · obtain rfl := congrArg Prod.fst (Option.some.inj he)
              exact ⟨stopStmt, hbase _⟩
        · exact Option.noConfusion he
      · obtain rfl := congrArg Prod.fst (Option.some.inj he)
        exact ⟨stopStmt, hbase _⟩
    · obtain rfl := congrArg Prod.fst (Option.some.inj he)
      exact ⟨stopStmt, List.nil_sublist _⟩
  · intro hiff
    have hc : ∀ x : Str, acts.contains x = acts'.contains x := by
      intro x
      show List.elem x acts = List.elem x acts'
      rw [List.elem_eq_mem, List.elem_eq_mem]
      simp only [hiff x]
    simp only [actionsAndHint, baseActions, pyIn, hc]

theorem c9_witness :
    (∃ fi, List.Sublist [seenStmt, stopStmt] [seenStmt, flagStmt, stopStmt, fi]) ∧
      ((∀ a : Str, a ∈ [lit "Stop execution", lit "Mark read", lit "Mark read"] ↔
          a ∈ [lit "Mark read", lit "Stop execution"]) →
        actionsAndHint true (.list [lit "Stop execution", lit "Mark read", lit "Mark read"])
            none =
          actionsAndHint true (.list [lit "Mark read", lit "Stop execution"]) none) :=
  c9 true [lit "Stop execution", lit "Mark read", lit "Mark read"]
    [lit "Mark read", lit "Stop execution"] none [seenStmt, stopStmt] [] (by decide)

end TbSieve
